import Mathlib

/-!
# Verification of the url-shortener core (src/index.tsx)

Shallow embedding of the three algorithmic cores of the url-shortener
worker:

* `createKey` — recursive short-key allocation against the KV store
  (src/index.tsx lines 236–246);
* `rateLimiter` / `admitRequest` — the sliding-window rate limiter middleware
  (src/index.tsx lines 21–44);
* the custom-path branch of the `POST /create` handler
  (src/index.tsx lines 269–285);
* the adaptive caption font sizing of the `GET /qr/:filename` handler
  (src/index.tsx lines 100–116).

The KV store is modelled as an association list from string keys to
string values (`get` returns the first binding, `put` overwrites).
JavaScript numbers appearing in the font-size computation are modelled
as exact rationals; epoch-millisecond timestamps as integers.
-/

namespace UrlShortener

/-- The KV namespace: an association list of key/value bindings.
`get` finds the first binding for a key; `put` overwrites. -/
abbrev Store := List (String × String)

/-- `kv.get(key)`: `some v` if the key is bound, `none` otherwise
(models the KV `get` returning `string | null`). -/
def Store.get (kv : Store) (k : String) : Option String :=
  match kv with
  | [] => none
  | (k', v) :: rest => if k' = k then some v else Store.get rest k

/-- `kv.put(key, value)`: bind `key` to `value`, replacing any previous
binding for that key. -/
def Store.put (kv : Store) (k v : String) : Store :=
  (k, v) :: kv.filter (fun p => p.1 ≠ k)

/-- JavaScript truthiness of a `string | null` value: `null` and the
empty string are falsy, every other string is truthy.  Both
`if (!result)` in `createKey` (line 240) and `if (existing)` in the
create handler (line 272) test exactly this. -/
def truthy : Option String → Bool
  | none => false
  | some s => s ≠ ""

/-! ## Rate limiter (src/index.tsx lines 21–44)

The middleware reads the JSON-encoded timestamp array stored under
`rate:<ip>` (absent record ↦ `[]`), prunes timestamps `t` with
`now - t >= windowMs`, denies when 10 survive (writing nothing), and
otherwise appends `now` and writes the result back with a 60 s TTL.
JSON encoding of the integer array is abstracted away: the stored
record is modelled directly as `Option (List Int)`. -/

/-- `windowMs = 60 * 1000` (line 25). -/
def windowMs : Int := 60 * 1000

/-- `maxRequests = 10` (line 26). -/
def maxRequests : Nat := 10

/-- Line 32: `requests.filter((timestamp) => now - timestamp < windowMs)`. -/
def pruneRequests (now : Int) (requests : List Int) : List Int :=
  requests.filter (fun t => now - t < windowMs)

/-- Result of one `rateLimiter` invocation: whether the request was
admitted, and the record written back (`none` = no write was
performed). -/
structure AdmitOutcome where
  allowed : Bool
  write : Option (List Int)
deriving DecidableEq, Repr

/-- One invocation of the rate limiter body (lines 28–43) for a single
identity: `stored` is the record currently under `rate:<ip>` (`none`
if absent), `now` is `Date.now()`.  Absent data parses to `[]`
(line 29); pruning is line 32; the length test is line 34 (deny,
no write); otherwise `now` is pushed and the record written
(lines 38–41). -/
def admitRequest (stored : Option (List Int)) (now : Int) : AdmitOutcome :=
  if maxRequests ≤ (pruneRequests now (stored.getD [])).length then
    { allowed := false, write := none }
  else
    { allowed := true, write := some (pruneRequests now (stored.getD []) ++ [now]) }

/-- Apply an admitRequest outcome to the stored record: a denied call writes
nothing, an allowed call overwrites the record. -/
def applyOutcome (stored : Option (List Int)) (o : AdmitOutcome) : Option (List Int) :=
  match o.write with
  | none => stored
  | some l => some l

/-- Run a sequence of `admitRequest` calls for one identity, threading the
stored record; returns the list of per-call admission results and the
final stored record. -/
def admitRun (stored : Option (List Int)) : List Int → List Bool × Option (List Int)
  | [] => ([], stored)
  | t :: ts =>
    let o := admitRequest stored t
    let rest := admitRun (applyOutcome stored o) ts
    (o.allowed :: rest.1, rest.2)

/-! ## Key allocation (src/index.tsx lines 236–246)

`createKey` draws `crypto.randomUUID()`, truncates to 6 characters,
and if the store holds a truthy value under that key recurses with a
fresh UUID; otherwise it writes `url` under the key and returns it.
Randomness is modelled as a stream `rand : Nat → String` of the UUID
strings produced by successive calls, indexed by a draw counter.  The
source recursion is unbounded, so the embedding is fuelled: `none`
means the recursion did not finish within the given fuel (the source
has no terminating failure outcome at all). -/

/-- `uuid.substring(0, 6)` (line 238): the first 6 characters. -/
def keyOfUuid (uuid : String) : String :=
  String.mk (uuid.data.take 6)

/-- Fuelled embedding of `createKey` (lines 236–246).  `i` counts the
UUID draws made so far.  Returns `some (key, kv')` when the source
returns `key` leaving the store as `kv'`; `none` when the source
recursion has not terminated within `fuel` calls. -/
def createKey (rand : Nat → String) : Nat → Nat → Store → String → Option (String × Store)
  | 0, _, _, _ => none
  | fuel + 1, i, kv, url =>
    let key := keyOfUuid (rand i)
    let result := kv.get key
    if truthy result then
      createKey rand fuel (i + 1) kv url
    else
      some (key, kv.put key url)

/-! ## Custom-path creation (src/index.tsx lines 269–285)

When the submitted `customPath` is nonempty, the handler does a single
existence check: a truthy stored value yields the "already in use"
error page with no write; otherwise the URL is written under the
custom path. -/

/-- Outcome of the custom-path branch of `POST /create`. -/
inductive CreateOutcome where
  | pathInUse (p : String)
  | created (key : String)
deriving DecidableEq, Repr

/-- The custom-path branch (lines 269–285): existence check on
line 271, `PathInUse` error render on lines 272–283 (no write),
otherwise the write on line 285.  Returns the outcome and the
resulting store. -/
def createWithCustomPath (kv : Store) (customPath url : String) :
    CreateOutcome × Store :=
  if truthy (kv.get customPath) then
    (CreateOutcome.pathInUse customPath, kv)
  else
    (CreateOutcome.created customPath, kv.put customPath url)

/-! ## Caption font sizing (src/index.tsx lines 100–116)

The renderer starts at `fontSize = 32`, estimates the caption width
as `displayText.length * (fontSize * 0.6) + textPadding * 2` with
`textPadding = 4`, and when the estimate exceeds
`maxTextWidth = width * 0.6` rescales the font by
`maxTextWidth / estimate`, floors, and clamps below at 12.
JavaScript float arithmetic is modelled by exact rationals; the
computation depends on the caption only through its length. -/

/-- Width estimate at a given font size (lines 105 and 115):
`len * (fontSize * 0.6) + textPadding * 2` with `textPadding = 4`. -/
def textWidthEstimate (len : ℕ) (fontSize : ℚ) : ℚ :=
  (len : ℚ) * (fontSize * (6 / 10)) + 4 * 2

/-- The final `fontSize` produced by lines 100–116 for a caption of
length `len` on an image of side `width` pixels. -/
def computeFontSize (len : ℕ) (width : ℚ) : ℤ :=
  if width * (6 / 10) < textWidthEstimate len 32 then
    if ⌊(32 : ℚ) * (width * (6 / 10) / textWidthEstimate len 32)⌋ < 12 then 12
    else ⌊(32 : ℚ) * (width * (6 / 10) / textWidthEstimate len 32)⌋
  else 32

/-! ## Rate limiter lemmas -/

theorem pruneRequests_eq_self (now : Int) (l : List Int)
    (h : ∀ t ∈ l, now - t < windowMs) : pruneRequests now l = l := by
  unfold pruneRequests
  rw [List.filter_eq_self]
  intro a ha
  exact decide_eq_true (h a ha)

theorem admitRequest_allowed_of_lt (stored : Option (List Int)) (now : Int)
    (h : (pruneRequests now (stored.getD [])).length < maxRequests) :
    admitRequest stored now =
      { allowed := true,
        write := some (pruneRequests now (stored.getD []) ++ [now]) } := by
  unfold admitRequest
  rw [if_neg (Nat.not_le.mpr h)]

theorem admitRequest_denied_of_le (stored : Option (List Int)) (now : Int)
    (h : maxRequests ≤ (pruneRequests now (stored.getD [])).length) :
    admitRequest stored now = { allowed := false, write := none } := by
  unfold admitRequest
  rw [if_pos h]

theorem admitRun_all_allowed (ts : List Int) (pre : List Int)
    (hlen : pre.length + ts.length ≤ maxRequests)
    (hw : ∀ a ∈ ts, ∀ b ∈ pre ++ ts, a - b < windowMs) :
    admitRun (some pre) ts = (List.replicate ts.length true, some (pre ++ ts)) := by
  induction ts generalizing pre with
  | nil => simp [admitRun]
  | cons t ts ih =>
    have hprune : pruneRequests t pre = pre :=
      pruneRequests_eq_self t pre fun b hb =>
        hw t (List.mem_cons_self t ts) b (List.mem_append_left _ hb)
    have hadmit : admitRequest (some pre) t =
        { allowed := true, write := some (pre ++ [t]) } := by
      have hlt : (pruneRequests t ((some pre).getD [])).length < maxRequests := by
        have h1 : (pruneRequests t ((some pre).getD [])).length = pre.length := by
          simp [hprune]
        have h2 : pre.length + (ts.length + 1) ≤ maxRequests := by
          simpa using hlen
        rw [h1]
        omega
      rw [admitRequest_allowed_of_lt _ _ hlt]
      simp [hprune]
    have hrec := ih (pre ++ [t])
      (by
        simp only [List.length_append, List.length_cons, List.length_nil] at hlen ⊢
        omega)
      (by
        intro a ha b hb
        rw [List.append_assoc, List.singleton_append] at hb
        exact hw a (List.mem_cons_of_mem _ ha) b hb)
    simp only [admitRun, hadmit, applyOutcome, hrec, List.length_cons,
      List.replicate_succ, List.append_assoc, List.singleton_append]

theorem admitRun_none_fst (ts : List Int) :
    (admitRun none ts).1 = (admitRun (some []) ts).1 := by
  cases ts with
  | nil => rfl
  | cons t ts =>
    have h1 : admitRequest none t = admitRequest (some []) t := rfl
    have h2 : applyOutcome none (admitRequest (some []) t) =
        applyOutcome (some []) (admitRequest (some []) t) := rfl
    simp only [admitRun, h1, h2]

theorem admitRun_append (stored : Option (List Int)) (xs ys : List Int) :
    admitRun stored (xs ++ ys) =
      ((admitRun stored xs).1 ++ (admitRun (admitRun stored xs).2 ys).1,
        (admitRun (admitRun stored xs).2 ys).2) := by
  induction xs generalizing stored with
  | nil => simp [admitRun]
  | cons x xs ih => simp [admitRun, ih]

/-- C2: for a fresh identity, 10 `admitRequest` calls whose timestamps all lie
within one 60,000 ms window each return `Allowed`, and an 11th call
within the same window returns `Denied`. -/
theorem rateLimiter_ten_allowed_then_denied (ts10 : List Int) (t11 : Int)
    (hlen : ts10.length = 10)
    (hw : ∀ a ∈ ts10 ++ [t11], ∀ b ∈ ts10 ++ [t11], a - b < windowMs) :
    (admitRun none (ts10 ++ [t11])).1 = List.replicate 10 true ++ [false] := by
  rw [admitRun_none_fst, admitRun_append]
  have hrun : admitRun (some []) ts10 = (List.replicate 10 true, some ts10) := by
    have h := admitRun_all_allowed ts10 []
      (by rw [hlen]; rfl)
      (by
        intro a ha b hb
        exact hw a (List.mem_append_left _ ha) b
          (by simpa using List.mem_append_left [t11] hb))
    rw [List.nil_append] at h
    rw [h, hlen]
  have hlast : admitRun (some ts10) [t11] = ([false], some ts10) := by
    have hprune : pruneRequests t11 ts10 = ts10 :=
      pruneRequests_eq_self t11 ts10 fun b hb =>
        hw t11 (by simp) b (List.mem_append_left _ hb)
    have hd : admitRequest (some ts10) t11 = { allowed := false, write := none } := by
      apply admitRequest_denied_of_le
      simp [hprune, hlen, maxRequests]
    simp only [admitRun, hd, applyOutcome]
  rw [hrun, hlast]

/-- C4: when the pruned sequence already holds `maxRequests` (10)
timestamps, `admitRequest` returns `Denied`, performs no write, and leaves the
stored record unchanged. -/
theorem rateLimiter_denied_no_write (stored : Option (List Int)) (now : Int)
    (h : maxRequests ≤ (pruneRequests now (stored.getD [])).length) :
    (admitRequest stored now).allowed = false ∧ (admitRequest stored now).write = none ∧
      applyOutcome stored (admitRequest stored now) = stored := by
  rw [admitRequest_denied_of_le stored now h]
  exact ⟨rfl, rfl, rfl⟩

/-- Witness for C4: ten timestamps at 0, an 11th call at 0 is denied with
no write. -/
theorem rateLimiter_denied_no_write_w :
    maxRequests ≤
      (pruneRequests 0 ((some (List.replicate 10 (0 : Int))).getD [])).length ∧
    ((admitRequest (some (List.replicate 10 (0 : Int))) 0).allowed = false ∧
      (admitRequest (some (List.replicate 10 (0 : Int))) 0).write = none ∧
      applyOutcome (some (List.replicate 10 (0 : Int)))
        (admitRequest (some (List.replicate 10 (0 : Int))) 0) =
        some (List.replicate 10 (0 : Int))) :=
  ⟨by decide, rateLimiter_denied_no_write (some (List.replicate 10 (0 : Int))) 0 (by decide)⟩

/-- C5: pruning keeps exactly the timestamps with
`now - timestamp < windowMs` (drops exactly those with
`now - timestamp ≥ 60000`); concretely, with 10 timestamps stored at 0
a call at 61000 finds an empty pruned sequence and is allowed. -/
theorem rateLimiter_prune_exact :
    (∀ (now : Int) (l : List Int) (t : Int),
        t ∈ pruneRequests now l ↔ t ∈ l ∧ ¬ windowMs ≤ now - t) ∧
    admitRequest (some (List.replicate 10 (0 : Int))) 61000 =
      { allowed := true, write := some [61000] } := by
  constructor
  · intro now l t
    unfold pruneRequests
    simp [List.mem_filter, Int.not_le]
  · decide

/-- C10: whenever `admitRequest` writes a record back (the `Allowed` path),
the written record has at most 10 entries and every timestamp in it is
within 60,000 ms of the call's `now`. -/
theorem rateLimiter_allowed_record_invariant (stored : Option (List Int))
    (now : Int) (l : List Int) (h : (admitRequest stored now).write = some l) :
    (admitRequest stored now).allowed = true ∧
      l.length ≤ maxRequests ∧ ∀ t ∈ l, now - t < windowMs := by
  unfold admitRequest at h ⊢
  by_cases hc : maxRequests ≤ (pruneRequests now (stored.getD [])).length
  · rw [if_pos hc] at h
    exact absurd h (by simp)
  · rw [if_neg hc] at h ⊢
    simp only [Option.some.injEq] at h
    subst h
    refine ⟨rfl, ?_, ?_⟩
    · simp only [List.length_append, List.length_singleton]
      omega
    · intro t ht
      rcases List.mem_append.mp ht with ht | ht
      · exact of_decide_eq_true (List.mem_filter.mp ht).2
      · simp only [List.mem_singleton] at ht
        subst ht
        simp [windowMs]

/-- Witness for C10: an allowed call at 0 with no prior record writes
`[0]`, which satisfies the invariant. -/
theorem rateLimiter_allowed_record_invariant_w :
    (admitRequest none 0).write = some [0] ∧
    ((admitRequest none 0).allowed = true ∧
      ([(0 : Int)] : List Int).length ≤ maxRequests ∧
      ∀ t ∈ ([(0 : Int)] : List Int), (0 : Int) - t < windowMs) :=
  ⟨by decide, rateLimiter_allowed_record_invariant none 0 [0] (by decide)⟩

/-- Witness for C2: calls at 0,…,9 are all allowed, the call at 10 is
denied. -/
theorem rateLimiter_ten_allowed_then_denied_w :
    ([0, 1, 2, 3, 4, 5, 6, 7, 8, 9] : List Int).length = 10 ∧
    (∀ a ∈ ([0, 1, 2, 3, 4, 5, 6, 7, 8, 9] : List Int) ++ [10],
      ∀ b ∈ ([0, 1, 2, 3, 4, 5, 6, 7, 8, 9] : List Int) ++ [10], a - b < windowMs) ∧
    (admitRun none (([0, 1, 2, 3, 4, 5, 6, 7, 8, 9] : List Int) ++ [10])).1 =
      List.replicate 10 true ++ [false] :=
  ⟨by decide, by decide,
    rateLimiter_ten_allowed_then_denied [0, 1, 2, 3, 4, 5, 6, 7, 8, 9] 10
      (by decide) (by decide)⟩

/-! ## Key allocation theorems -/

/-- C1 (code behaviour): when every candidate key drawn by the random
stream is occupied by a truthy value, `createKey` exhausts any amount
of fuel without returning: the source recursion (line 243) has no
retry cap and no `AllocationExhausted` outcome at all. -/
theorem createKey_all_collide_never_returns (rand : Nat → String) (kv : Store)
    (url : String) (h : ∀ i, truthy (kv.get (keyOfUuid (rand i))) = true) :
    ∀ fuel start, createKey rand fuel start kv url = none := by
  intro fuel
  induction fuel with
  | zero => intro start; rfl
  | succ n ih =>
    intro start
    simp only [createKey, h start, if_true]
    exact ih (start + 1)

/-- Witness for C1: a store occupying the single candidate key the
stream ever produces; `createKey` returns nothing for fuel 10. -/
theorem createKey_all_collide_never_returns_w :
    (∀ i : Nat,
      truthy (Store.get [("aaaaaa", "x")] (keyOfUuid ((fun _ => "aaaaaa") i))) = true) ∧
    createKey (fun _ => "aaaaaa") 10 0 [("aaaaaa", "x")] "https://example.com" = none :=
  ⟨fun _ => by
      show truthy (Store.get [("aaaaaa", "x")] (keyOfUuid "aaaaaa")) = true
      decide,
    createKey_all_collide_never_returns (fun _ => "aaaaaa") [("aaaaaa", "x")]
      "https://example.com"
      (fun _ => by
        show truthy (Store.get [("aaaaaa", "x")] (keyOfUuid "aaaaaa")) = true
        decide)
      10 0⟩

/-- C8: on an empty store, `createKey` succeeds on the first draw:
it returns the 6-character truncation of the first UUID and the store
then maps that key to the target URL exactly. -/
theorem createKey_empty_store (rand : Nat → String) (fuel : Nat)
    (h : 6 ≤ (rand 0).length) :
    ∃ k : String,
      createKey rand (fuel + 1) 0 [] "https://example.com" =
        some (k, [(k, "https://example.com")]) ∧
      k.length = 6 ∧
      Store.get [(k, "https://example.com")] k = some "https://example.com" := by
  refine ⟨keyOfUuid (rand 0), ?_, ?_, ?_⟩
  · simp [createKey, Store.get, truthy, Store.put]
  · show (String.mk ((rand 0).data.take 6)).length = 6
    show ((rand 0).data.take 6).length = 6
    rw [List.length_take]
    exact Nat.min_eq_left h
  · simp [Store.get]

/-- Witness for C8: a 36-character UUID string as the first draw. -/
theorem createKey_empty_store_w :
    6 ≤ ("123e4567-e89b-12d3-a456-426614174000" : String).length ∧
    ∃ k : String,
      createKey (fun _ => "123e4567-e89b-12d3-a456-426614174000") 1 0 []
          "https://example.com" =
        some (k, [(k, "https://example.com")]) ∧
      k.length = 6 ∧
      Store.get [(k, "https://example.com")] k = some "https://example.com" :=
  ⟨by decide,
    createKey_empty_store (fun _ => "123e4567-e89b-12d3-a456-426614174000") 0
      (by decide)⟩

/-! ## Custom-path creation theorems -/

/-- C9: a key stored with the empty string as value is treated as
absent by both truthiness checks: `createKey` reuses and overwrites
such a key, and the custom-path branch raises no `PathInUse` error and
overwrites it. -/
theorem empty_value_treated_as_absent (kv : Store) (k url : String)
    (h : kv.get k = some "") :
    (∀ (rand : Nat → String) (fuel i : Nat), keyOfUuid (rand i) = k →
        createKey rand (fuel + 1) i kv url = some (k, kv.put k url)) ∧
    createWithCustomPath kv k url = (CreateOutcome.created k, kv.put k url) := by
  constructor
  · intro rand fuel i hk
    simp only [createKey, hk, h]
    simp [truthy]
  · unfold createWithCustomPath
    rw [h]
    simp [truthy]

/-- Witness for C9: key "k1" stored with value `""` is reused by both
paths. -/
theorem empty_value_treated_as_absent_w :
    Store.get [("k1", "")] "k1" = some "" ∧
    ((∀ (rand : Nat → String) (fuel i : Nat), keyOfUuid (rand i) = "k1" →
        createKey rand (fuel + 1) i [("k1", "")] "https://example.com" =
          some ("k1", Store.put [("k1", "")] "k1" "https://example.com")) ∧
      createWithCustomPath [("k1", "")] "k1" "https://example.com" =
        (CreateOutcome.created "k1",
          Store.put [("k1", "")] "k1" "https://example.com")) :=
  ⟨by decide,
    empty_value_treated_as_absent [("k1", "")] "k1" "https://example.com" (by decide)⟩

/-- C3 counterexample: a store holding "foo" with the empty string as
its value satisfies "already contains the key \"foo\" mapped to some
value", yet the request is not rejected and the stored value is
replaced. -/
theorem customPath_empty_value_cex :
    Store.get [("foo", "")] "foo" = some "" ∧
    createWithCustomPath [("foo", "")] "foo" "https://example.com" ≠
      (CreateOutcome.pathInUse "foo", [("foo", "")]) ∧
    Store.get
      (createWithCustomPath [("foo", "")] "foo" "https://example.com").2 "foo" =
      some "https://example.com" := by
  decide

/-- C3 (amended): for every store mapping "foo" to a nonempty value, a
creation request with custom path "foo" returns the `PathInUse` error
and leaves the store — in particular the value under "foo" —
unchanged. -/
theorem customPath_in_use_no_overwrite (kv : Store) (v url : String)
    (hget : kv.get "foo" = some v) (hv : v ≠ "") :
    createWithCustomPath kv "foo" url = (CreateOutcome.pathInUse "foo", kv) ∧
    (createWithCustomPath kv "foo" url).2.get "foo" = some v := by
  have honc : createWithCustomPath kv "foo" url =
      (CreateOutcome.pathInUse "foo", kv) := by
    unfold createWithCustomPath
    rw [hget]
    simp [truthy, hv]
  exact ⟨honc, by rw [honc]; exact hget⟩

/-- Witness for the amended C3: store `[("foo","bar")]`. -/
theorem customPath_in_use_no_overwrite_w :
    Store.get [("foo", "bar")] "foo" = some "bar" ∧ "bar" ≠ "" ∧
    (createWithCustomPath [("foo", "bar")] "foo" "https://example.com" =
        (CreateOutcome.pathInUse "foo", [("foo", "bar")]) ∧
      (createWithCustomPath [("foo", "bar")] "foo" "https://example.com").2.get
          "foo" = some "bar") :=
  ⟨by decide, by decide,
    customPath_in_use_no_overwrite [("foo", "bar")] "bar" "https://example.com"
      (by decide) (by decide)⟩

/-! ## Caption font sizing theorems -/

theorem textWidthEstimate_pos (l : ℕ) : (0 : ℚ) < textWidthEstimate l 32 := by
  unfold textWidthEstimate
  positivity

theorem textWidthEstimate_mono (l1 l2 : ℕ) (h : l1 ≤ l2) :
    textWidthEstimate l1 32 ≤ textWidthEstimate l2 32 := by
  unfold textWidthEstimate
  have hc : (l1 : ℚ) ≤ (l2 : ℚ) := Nat.cast_le.mpr h
  have := mul_le_mul_of_nonneg_right hc (by norm_num : (0 : ℚ) ≤ 32 * (6 / 10))
  linarith

theorem twelve_le_computeFontSize (l : ℕ) (w : ℚ) :
    12 ≤ computeFontSize l w := by
  unfold computeFontSize
  split
  · split
    · exact le_refl 12
    · next hlt => exact le_of_not_lt hlt
  · norm_num

theorem clamp12_mono {a b : ℤ} (h : a ≤ b) :
    (if a < 12 then 12 else a) ≤ if b < 12 then 12 else b := by
  split <;> split <;> omega

theorem computeFontSize_anti (w : ℚ) (l1 l2 : ℕ) (h : l1 ≤ l2) :
    computeFontSize l2 w ≤ computeFontSize l1 w := by
  have he1 := textWidthEstimate_pos l1
  have he2 := textWidthEstimate_pos l2
  have hee := textWidthEstimate_mono l1 l2 h
  unfold computeFontSize
  by_cases h2 : w * (6 / 10) < textWidthEstimate l2 32
  · rw [if_pos h2]
    by_cases h1 : w * (6 / 10) < textWidthEstimate l1 32
    · rw [if_pos h1]
      rcases le_or_lt (w * (6 / 10)) 0 with hm | hm
      · have hs1 : ⌊(32 : ℚ) * (w * (6 / 10) / textWidthEstimate l1 32)⌋ < 12 := by
          have hx : (32 : ℚ) * (w * (6 / 10) / textWidthEstimate l1 32) ≤ 0 :=
            mul_nonpos_of_nonneg_of_nonpos (by norm_num)
              (div_nonpos_of_nonpos_of_nonneg hm (le_of_lt he1))
          have := Int.floor_nonpos hx
          omega
        have hs2 : ⌊(32 : ℚ) * (w * (6 / 10) / textWidthEstimate l2 32)⌋ < 12 := by
          have hx : (32 : ℚ) * (w * (6 / 10) / textWidthEstimate l2 32) ≤ 0 :=
            mul_nonpos_of_nonneg_of_nonpos (by norm_num)
              (div_nonpos_of_nonpos_of_nonneg hm (le_of_lt he2))
          have := Int.floor_nonpos hx
          omega
        rw [if_pos hs1, if_pos hs2]
      · have hdiv : w * (6 / 10) / textWidthEstimate l2 32 ≤
            w * (6 / 10) / textWidthEstimate l1 32 :=
          div_le_div_of_nonneg_left (le_of_lt hm) he1 hee
        have hmul := mul_le_mul_of_nonneg_left hdiv (by norm_num : (0 : ℚ) ≤ 32)
        exact clamp12_mono (Int.floor_le_floor hmul)
    · rw [if_neg h1]
      have hlt1 : w * (6 / 10) / textWidthEstimate l2 32 < 1 :=
        (div_lt_one he2).mpr h2
      have hM : (0 : ℚ) ≤ w * (6 / 10) := le_trans (le_of_lt he1) (not_lt.mp h1)
      have h32 : (32 : ℚ) * (w * (6 / 10) / textWidthEstimate l2 32) < 32 := by
        nlinarith [div_nonneg hM (le_of_lt he2)]
      have hfl : ⌊(32 : ℚ) * (w * (6 / 10) / textWidthEstimate l2 32)⌋ < 32 :=
        Int.floor_lt.mpr (by exact_mod_cast h32)
      split <;> omega
  · rw [if_neg h2, if_neg (not_lt.mpr (le_trans hee (not_lt.mp h2)))]

/-- C6: for any fixed image side, the computed caption font size is a
monotonically non-increasing function of the caption length, and it is
at least 12 for every caption length. -/
theorem fontSize_monotone_and_min (width : ℚ) :
    (∀ l1 l2 : ℕ, l1 ≤ l2 →
        computeFontSize l2 width ≤ computeFontSize l1 width) ∧
    ∀ l : ℕ, 12 ≤ computeFontSize l width :=
  ⟨fun l1 l2 h => computeFontSize_anti width l1 l2 h,
    fun l => twelve_le_computeFontSize l width⟩

/-- Witness for C6 at image side 1000: lengths 50 ≤ 100. -/
theorem fontSize_monotone_and_min_w :
    computeFontSize 100 1000 ≤ computeFontSize 50 1000 ∧
    12 ≤ computeFontSize 100 1000 :=
  ⟨(fontSize_monotone_and_min 1000).1 50 100 (by decide),
    (fontSize_monotone_and_min 1000).2 100⟩

/-- C7: whenever the width estimate at font size 32 does not exceed
`0.6 * imageSidePx`, the computed font size is exactly 32. -/
theorem fontSize_32_when_fits (len : ℕ) (width : ℚ)
    (h : textWidthEstimate len 32 ≤ width * (6 / 10)) :
    computeFontSize len width = 32 := by
  unfold computeFontSize
  rw [if_neg (not_lt.mpr h)]

/-- Witness for C7: a 5-character caption on a 1000 px image
(estimate 104 ≤ 600). -/
theorem fontSize_32_when_fits_w :
    textWidthEstimate 5 32 ≤ (1000 : ℚ) * (6 / 10) ∧
    computeFontSize 5 1000 = 32 :=
  ⟨by norm_num [textWidthEstimate],
    fontSize_32_when_fits 5 1000 (by norm_num [textWidthEstimate])⟩

end UrlShortener
